import Mathlib

/-!
Verification of the catalogojubileu storefront/order-management core.

Each definition is a shallow embedding of a function of the repository
(file and line references in the doc comments).  JS numbers that only ever
hold integers are modelled as `Int`, money values as `Rat`, timestamps as
`Int` milliseconds.  JS objects used as finite maps are modelled as
association lists with insertion-order update semantics (spread update
replaces the binding in place, a fresh key is appended).
-/

namespace Catalogo

/-- Product row as loaded by the public catalog page
(src/app/c/[slug]/page.tsx, type Produto). -/
structure Produto where
  id : String
  empresaId : String
  categoriaId : Option String
  nome : String
  preco : Rat
  estoque : Int
  ativo : Bool
  deriving Repr, DecidableEq

/-- Cart state: the JS object `qtd : Record<string, number>` mapping product
id to quantity, kept as an association list in insertion order. -/
abbrev Qtd := List (String × Int)

/-- Read `prev[produto.id] ?? 0`. -/
def getQtd (m : Qtd) (k : String) : Int :=
  ((m.find? (fun e => e.1 = k)).map Prod.snd).getD 0

/-- JS spread update `{ ...prev, [k]: v }`: an existing binding is replaced
in place, a fresh key is appended at the end. -/
def setQtd (m : Qtd) (k : String) (v : Int) : Qtd :=
  if m.any (fun e => e.1 = k) then
    m.map (fun e => if e.1 = k then (k, v) else e)
  else
    m ++ [(k, v)]

/-- Translation of `inc` (src/app/c/[slug]/page.tsx lines 163-174):
increment blocked entirely when `estoque === 0`, blocked past the bound when
`estoque > 0`, unbounded otherwise. -/
def inc (p : Produto) (m : Qtd) : Qtd :=
  let current := getQtd m p.id
  let next := current + 1
  if p.estoque = 0 then m
  else if p.estoque > 0 ∧ next > p.estoque then m
  else setQtd m p.id next

/-- Translation of `dec` (src/app/c/[slug]/page.tsx lines 176-182):
`Math.max(0, current - 1)`. -/
def dec (p : Produto) (m : Qtd) : Qtd :=
  setQtd m p.id (max 0 (getQtd m p.id - 1))

/-- Translation of `setExact` (src/app/c/[slug]/page.tsx lines 184-191).
The raw input is `Number(e.target.value)`; a non-finite input is modelled as
`none` and coerced to 0, a finite one as `some x` with
`Math.max(0, Math.floor(x))`. -/
def setExact (p : Produto) (value : Option Rat) (m : Qtd) : Qtd :=
  let v : Int := match value with
    | some x => max 0 ⌊x⌋
    | none => 0
  if p.estoque = 0 then m
  else if p.estoque > 0 ∧ v > p.estoque then setQtd m p.id p.estoque
  else setQtd m p.id v

/-- Line item derived by the cart aggregator (`itensCarrinho` entries). -/
structure ItemCarrinho where
  produto : Produto
  quantidade : Int
  subtotal : Rat
  deriving Repr, DecidableEq

/-- Translation of the `itensCarrinho` memo (src/app/c/[slug]/page.tsx lines
79-90): entries with quantity > 0, resolved against the product list
(`produtos.find`), unresolved ids dropped, subtotal `q * (Number(p.preco) || 0)`
(the `|| 0` guard is the identity on a rational price). -/
def itensCarrinho (m : Qtd) (produtos : List Produto) : List ItemCarrinho :=
  (m.filter (fun e => 0 < e.2)).filterMap
    (fun e => (produtos.find? (fun p => p.id = e.1)).map
      (fun p => ⟨p, e.2, (e.2 : Rat) * p.preco⟩))

/-- Translation of the `total` memo (src/app/c/[slug]/page.tsx lines 92-94):
`itensCarrinho.reduce((acc, it) => acc + it.subtotal, 0)`. -/
def total (m : Qtd) (produtos : List Produto) : Rat :=
  (itensCarrinho m produtos).foldl (fun acc it => acc + it.subtotal) 0

/-- Cart invariant for one product: quantity non-negative, and bounded by the
stock when the stock is a finite positive bound. -/
def QtdInv (p : Produto) (m : Qtd) : Prop :=
  0 ≤ getQtd m p.id ∧ (0 < p.estoque → getQtd m p.id ≤ p.estoque)

lemma find?_map_replace (m : Qtd) (k : String) (v : Int)
    (h : m.any (fun e => e.1 = k) = true) :
    (m.map (fun e => if e.1 = k then (k, v) else e)).find?
      (fun e => e.1 = k) = some (k, v) := by
  induction m with
  | nil => simp at h
  | cons e t ih =>
    by_cases hk : e.1 = k
    · simp [hk]
    · have ht : t.any (fun e => e.1 = k) = true := by
        simpa [List.any_cons, hk] using h
      simpa [hk] using ih ht

lemma find?_append_fresh (m : Qtd) (k : String) (v : Int)
    (h : m.any (fun e => e.1 = k) = false) :
    (m ++ [(k, v)]).find? (fun e => e.1 = k) = some (k, v) := by
  induction m with
  | nil => simp
  | cons e t ih =>
    have hk : ¬ e.1 = k := by
      intro he
      simp [List.any_cons, he] at h
    have ht : t.any (fun e => e.1 = k) = false := by
      simpa [List.any_cons, hk] using h
    simpa [hk] using ih ht

lemma getQtd_setQtd (m : Qtd) (k : String) (v : Int) :
    getQtd (setQtd m k v) k = v := by
  unfold getQtd setQtd
  cases h : m.any (fun e => e.1 = k) with
  | true => simp [h, find?_map_replace m k v h]
  | false => simp [h, find?_append_fresh m k v h]

lemma qtdInv_setQtd (p : Produto) (m : Qtd) (v : Int) (h0 : 0 ≤ v)
    (hb : 0 < p.estoque → v ≤ p.estoque) : QtdInv p (setQtd m p.id v) := by
  unfold QtdInv
  rw [getQtd_setQtd]
  exact ⟨h0, hb⟩

lemma foldl_add_subtotal (l : List ItemCarrinho) :
    l.foldl (fun acc it => acc + it.subtotal) 0 =
      (l.map ItemCarrinho.subtotal).sum := by
  rw [List.sum_eq_foldl, List.foldl_map]

/-- C2: the derived line-item list contains exactly the cart entries with
quantity > 0 whose product id resolves in the product list; each line's
subtotal equals quantity times the product's unit price; the grand total
equals the sum of all line subtotals. -/
theorem itensCarrinho_total_spec (m : Qtd) (produtos : List Produto) :
    (∀ it, it ∈ itensCarrinho m produtos ↔
      ∃ e ∈ m, 0 < e.2 ∧
        produtos.find? (fun p => p.id = e.1) = some it.produto ∧
        it.quantidade = e.2 ∧ it.subtotal = (e.2 : Rat) * it.produto.preco) ∧
    total m produtos =
      ((itensCarrinho m produtos).map ItemCarrinho.subtotal).sum ∧
    ∀ it ∈ itensCarrinho m produtos,
      it.subtotal = (it.quantidade : Rat) * it.produto.preco := by
  have hmem : ∀ it, it ∈ itensCarrinho m produtos ↔
      ∃ e ∈ m, 0 < e.2 ∧
        produtos.find? (fun p => p.id = e.1) = some it.produto ∧
        it.quantidade = e.2 ∧ it.subtotal = (e.2 : Rat) * it.produto.preco := by
    intro it
    unfold itensCarrinho
    rw [List.mem_filterMap]
    constructor
    · rintro ⟨e, he, hf⟩
      rw [List.mem_filter] at he
      obtain ⟨hm, hpos⟩ := he
      obtain ⟨p, hp, hpe⟩ := Option.map_eq_some'.mp hf
      refine ⟨e, hm, by simpa using hpos, ?_, ?_, ?_⟩
      · rw [hp, ← hpe]
      · rw [← hpe]
      · rw [← hpe]
    · rintro ⟨e, hm, hpos, hfind, hq, hsub⟩
      refine ⟨e, ?_, ?_⟩
      · rw [List.mem_filter]
        exact ⟨hm, by simpa using hpos⟩
      · rw [hfind, Option.map_some']
        cases it
        simp only at hfind hq hsub ⊢
        rw [hq, hsub]
  refine ⟨hmem, foldl_add_subtotal _, ?_⟩
  intro it hit
  obtain ⟨e, _, _, _, hq, hsub⟩ := (hmem it).mp hit
  rw [hsub, hq]

/-- C3: increment, decrement and set-exact keep the quantity a non-negative
integer, never exceed a finite positive stock bound, and increment on the
zero-stock sentinel leaves the cart unchanged. -/
theorem cartOps_preserve_inv (p : Produto) (m : Qtd) (value : Option Rat)
    (h : QtdInv p m) :
    QtdInv p (inc p m) ∧ QtdInv p (dec p m) ∧ QtdInv p (setExact p value m) ∧
    (p.estoque = 0 → inc p m = m) := by
  obtain ⟨h0, hb⟩ := h
  refine ⟨?_, ?_, ?_, fun hz => by simp [inc, hz]⟩
  · by_cases hz : p.estoque = 0
    · have hrw : inc p m = m := by simp [inc, hz]
      rw [hrw]
      exact ⟨h0, hb⟩
    · by_cases hcap : p.estoque > 0 ∧ getQtd m p.id + 1 > p.estoque
      · have hrw : inc p m = m := by simp [inc, hz, hcap]
        rw [hrw]
        exact ⟨h0, hb⟩
      · have hrw : inc p m = setQtd m p.id (getQtd m p.id + 1) := by
          simp [inc, hz, hcap]
        rw [hrw]
        refine qtdInv_setQtd p m _ (by omega) ?_
        intro hpos
        by_contra hgt
        exact hcap ⟨hpos, by omega⟩
  · have hrw : dec p m = setQtd m p.id (max 0 (getQtd m p.id - 1)) := rfl
    rw [hrw]
    refine qtdInv_setQtd p m _ (le_max_left _ _) ?_
    intro hpos
    have := hb hpos
    omega
  · set v : Int := (match value with
      | some x => max 0 ⌊x⌋
      | none => 0) with hv
    have hv0 : 0 ≤ v := by
      rw [hv]
      cases value with
      | some x => exact le_max_left _ _
      | none => exact le_refl 0
    by_cases hz : p.estoque = 0
    · have hrw : setExact p value m = m := by simp [setExact, hz]
      rw [hrw]
      exact ⟨h0, hb⟩
    · by_cases hcap : p.estoque > 0 ∧ v > p.estoque
      · have hrw : setExact p value m = setQtd m p.id p.estoque := by
          simp [setExact, hz, ← hv, hcap]
        rw [hrw]
        exact qtdInv_setQtd p m _ (le_of_lt hcap.1) fun _ => le_refl _
      · have hrw : setExact p value m = setQtd m p.id v := by
          simp [setExact, hz, ← hv, hcap]
        rw [hrw]
        refine qtdInv_setQtd p m _ hv0 ?_
        intro hpos
        by_contra hgt
        exact hcap ⟨hpos, by omega⟩

/-- Witness for `cartOps_preserve_inv` at a concrete product and cart. -/
theorem cartOps_preserve_inv_witness :
    QtdInv ⟨"a", "e", none, "Pneu A", 10, 3, true⟩ [("a", 2)] ∧
    (QtdInv ⟨"a", "e", none, "Pneu A", 10, 3, true⟩
        (inc ⟨"a", "e", none, "Pneu A", 10, 3, true⟩ [("a", 2)]) ∧
      QtdInv ⟨"a", "e", none, "Pneu A", 10, 3, true⟩
        (dec ⟨"a", "e", none, "Pneu A", 10, 3, true⟩ [("a", 2)]) ∧
      QtdInv ⟨"a", "e", none, "Pneu A", 10, 3, true⟩
        (setExact ⟨"a", "e", none, "Pneu A", 10, 3, true⟩ (some 7) [("a", 2)]) ∧
      ((⟨"a", "e", none, "Pneu A", 10, 3, true⟩ : Produto).estoque = 0 →
        inc ⟨"a", "e", none, "Pneu A", 10, 3, true⟩ [("a", 2)] = [("a", 2)])) :=
  ⟨by unfold QtdInv; decide,
    cartOps_preserve_inv ⟨"a", "e", none, "Pneu A", 10, 3, true⟩ [("a", 2)]
      (some 7) (by unfold QtdInv; decide)⟩

end Catalogo

namespace Pedidos

/-- Order status enum (src/app/dashboard/pedidos/page.tsx, type PedidoStatus). -/
inductive PedidoStatus where
  | rascunho
  | enviadoWhatsapp
  | aprovado
  | cancelado
  deriving Repr, DecidableEq

open PedidoStatus

/-- Normalized order row (src/app/dashboard/pedidos/page.tsx, type Pedido). -/
structure Pedido where
  id : String
  empresaId : String
  clienteUsuarioId : Option String
  status : PedidoStatus
  total : Rat
  criadoEm : Int
  deriving Repr, DecidableEq

/-- Translation of `isFinalizado` (src/app/dashboard/pedidos/page.tsx lines
100-102). -/
def isFinalizado (s : PedidoStatus) : Bool :=
  s == aprovado || s == cancelado

/-- Translation of `statusRank` (src/app/dashboard/pedidos/page.tsx lines
112-115): 0 = shown on top, 1 = below. -/
def statusRank (s : PedidoStatus) : Int :=
  if isFinalizado s then 1 else 0

/-- Comparator of the `pedidosOrdenados` memo (src/app/dashboard/pedidos/
page.tsx lines 140-152).  The JS comparator returns `ra - rb` when the ranks
differ and `db - da` otherwise; `pedidoLe a b` is the associated total Boolean
order, i.e. comparator result at most 0. -/
def pedidoLe (a b : Pedido) : Bool :=
  if statusRank a.status = statusRank b.status then b.criadoEm ≤ a.criadoEm
  else statusRank a.status < statusRank b.status

/-- The sorted list rendered by the orders page. -/
def pedidosOrdenados (pedidos : List Pedido) : List Pedido :=
  pedidos.mergeSort pedidoLe

/-- PAGE_SIZE constant (src/app/dashboard/pedidos/page.tsx line 15). -/
def PAGE_SIZE : Int := 10

/-- Pagination bounds of `loadPedidos` (src/app/dashboard/pedidos/page.tsx
lines 174-175), passed to an inclusive `.range(from, to)`. -/
def pageWindow (page : Int) : Int × Int :=
  ((page - 1) * PAGE_SIZE, (page - 1) * PAGE_SIZE + PAGE_SIZE - 1)

lemma pedidoLe_iff (a b : Pedido) : pedidoLe a b = true ↔
    (statusRank a.status = statusRank b.status ∧ b.criadoEm ≤ a.criadoEm) ∨
    (statusRank a.status ≠ statusRank b.status ∧
      statusRank a.status < statusRank b.status) := by
  unfold pedidoLe
  by_cases h : statusRank a.status = statusRank b.status <;> simp [h]

lemma pedidoLe_trans (a b c : Pedido) (hab : pedidoLe a b = true)
    (hbc : pedidoLe b c = true) : pedidoLe a c = true := by
  rw [pedidoLe_iff] at *
  omega

lemma pedidoLe_total (a b : Pedido) :
    (pedidoLe a b || pedidoLe b a) = true := by
  rw [Bool.or_eq_true, pedidoLe_iff, pedidoLe_iff]
  omega

lemma pedidoLe_imp (a b : Pedido) (h : pedidoLe a b = true) :
    (isFinalizado a.status = false ∧ isFinalizado b.status = true) ∨
    (isFinalizado a.status = isFinalizado b.status ∧
      b.criadoEm ≤ a.criadoEm) := by
  rw [pedidoLe_iff] at h
  cases hfa : isFinalizado a.status <;> cases hfb : isFinalizado b.status <;>
    simp [statusRank, hfa, hfb] at h ⊢ <;> omega

/-- C6: the rendered order list is a permutation of the fetched page, ordered
with non-terminal orders first and by creation time descending within each
partition; a status is non-terminal exactly when it is neither approved nor
cancelled; pages are fetched in fixed inclusive windows of 10 rows. -/
theorem pedidosOrdenados_spec (pedidos : List Pedido) (page : Int) :
    (pedidosOrdenados pedidos).Perm pedidos ∧
    (pedidosOrdenados pedidos).Pairwise (fun a b =>
      (isFinalizado a.status = false ∧ isFinalizado b.status = true) ∨
      (isFinalizado a.status = isFinalizado b.status ∧
        b.criadoEm ≤ a.criadoEm)) ∧
    (∀ s, isFinalizado s = false ↔ ¬(s = aprovado ∨ s = cancelado)) ∧
    (pageWindow page).2 - (pageWindow page).1 + 1 = 10 := by
  refine ⟨List.mergeSort_perm pedidos pedidoLe, ?_, ?_, ?_⟩
  · exact (List.sorted_mergeSort pedidoLe_trans pedidoLe_total pedidos).imp
      (fun h => pedidoLe_imp _ _ h)
  · intro s
    cases s <;> simp [isFinalizado]
  · simp [pageWindow, PAGE_SIZE]
    omega

end Pedidos

namespace Dashboard

open Pedidos PedidoStatus

/-- Pending-orders count of the first `DashboardPage` in
src/app/dashboard/page.tsx (lines 140-144): the query filters
`.eq("status", "enviado_whatsapp")`. -/
def pendentesCountV1 (pedidos : List Pedido) (eid : String) : Nat :=
  (pedidos.filter (fun p =>
    p.empresaId == eid && p.status == enviadoWhatsapp)).length

/-- Pending-orders count of the second `DashboardPage` in
src/app/dashboard/page.tsx (lines 616-620): the query filters
`.in("status", ["rascunho", "enviado_whatsapp"])`. -/
def pendentesCountV2 (pedidos : List Pedido) (eid : String) : Nat :=
  (pedidos.filter (fun p =>
    p.empresaId == eid &&
      (p.status == rascunho || p.status == enviadoWhatsapp))).length

/-- Count of the company's non-terminal orders, in the claim's words: status
neither approved nor cancelled. -/
def nonTerminalCount (pedidos : List Pedido) (eid : String) : Nat :=
  (pedidos.filter (fun p =>
    p.empresaId == eid &&
      !(p.status == aprovado || p.status == cancelado))).length

/-- Counterexample to C8 as stated: a single draft (`rascunho`) order is
non-terminal, yet the first DashboardPage's pending metric does not count it. -/
theorem pendentesCountV1_misses_rascunho :
    pendentesCountV1 [⟨"o1", "e", none, rascunho, 0, 0⟩] "e" = 0 ∧
    nonTerminalCount [⟨"o1", "e", none, rascunho, 0, 0⟩] "e" = 1 := by
  constructor <;> rfl

/-- C8 (amended): the second DashboardPage's pending metric counts exactly the
company's non-terminal orders (draft and submitted both included), while the
first DashboardPage's metric counts only the submitted (`enviado_whatsapp`)
ones, excluding drafts. -/
theorem pendentesCount_spec (pedidos : List Pedido) (eid : String) :
    pendentesCountV2 pedidos eid = nonTerminalCount pedidos eid ∧
    pendentesCountV1 pedidos eid =
      (pedidos.filter (fun p =>
        p.empresaId == eid && p.status == enviadoWhatsapp)).length := by
  refine ⟨?_, rfl⟩
  unfold pendentesCountV2 nonTerminalCount
  congr 1
  apply List.filter_congr
  intro p _
  cases hs : p.status <;> simp [hs]

/-- Time window selector (src/app/dashboard/page.tsx, type PeriodoFiltro). -/
inductive PeriodoFiltro where
  | hoje
  | semana
  | mes
  | total
  deriving Repr, DecidableEq

/-- Milliseconds in one day; timestamps are modelled as integer milliseconds
with a fixed-offset local timezone normalized away. -/
def dayMs : Int := 86400000

/-- Translation of `startOfDayLocal` (src/app/dashboard/page.tsx lines
453-455): floor the timestamp to local midnight. -/
def startOfDayLocal (t : Int) : Int :=
  dayMs * (t / dayMs)

/-- Translation of `addDaysLocal` (src/app/dashboard/page.tsx lines 457-461). -/
def addDaysLocal (t : Int) (days : Int) : Int :=
  t + days * dayMs

/-- Translation of `getPeriodoRange` (src/app/dashboard/page.tsx lines
467-489): today / trailing 7 days / trailing 30 days / unbounded. -/
def getPeriodoRange (periodo : PeriodoFiltro) (now : Int) :
    Option Int × Option Int :=
  match periodo with
  | .hoje =>
      (some (startOfDayLocal now), some (startOfDayLocal (addDaysLocal now 1)))
  | .semana =>
      (some (startOfDayLocal (addDaysLocal now (-6))),
        some (startOfDayLocal (addDaysLocal now 1)))
  | .mes =>
      (some (startOfDayLocal (addDaysLocal now (-29))),
        some (startOfDayLocal (addDaysLocal now 1)))
  | .total => (none, none)

/-- Translation of the `aprovadosPeriodoRes` query (src/app/dashboard/page.tsx
lines 634-646): company filter, `.eq("status", "aprovado")`, then `.gte` /
`.lt` on the creation time only when the bound is present. -/
def aprovadosQuery (pedidos : List Pedido) (eid : String)
    (lo hi : Option Int) : List Pedido :=
  pedidos.filter (fun p =>
    p.empresaId == eid && p.status == aprovado &&
    (match lo with
      | some f => decide (f ≤ p.criadoEm)
      | none => true) &&
    (match hi with
      | some t => decide (p.criadoEm < t)
      | none => true))

/-- Translation of the `soma` reduction (src/app/dashboard/page.tsx line 693):
`aprovados.reduce((acc, p) => acc + (Number(p.total) || 0), 0)` (the `|| 0`
guard is the identity on a rational total). -/
def vendasAprovadas (pedidos : List Pedido) (eid : String)
    (periodo : PeriodoFiltro) (now : Int) : Rat :=
  let r := getPeriodoRange periodo now
  (aprovadosQuery pedidos eid r.1 r.2).foldl (fun acc p => acc + p.total) 0

/-- Day grid loop of the series builder (src/app/dashboard/page.tsx lines
708-711): `for (let d = start; d < seriesTo; d = addDaysLocal(d, 1))`. -/
def buildDays (d hi : Int) : List Int :=
  if _h : d < hi then d :: buildDays (d + dayMs) hi else []
termination_by (hi - d).toNat
decreasing_by
  simp_wf
  unfold dayMs
  omega

/-- Accumulation step of the series builder (src/app/dashboard/page.tsx lines
716-721): add the order's total to the bucket whose day key matches; the grid
keys are strictly increasing, so at most one entry matches. -/
def bump (days : List (Int × Rat)) (k : Int) (v : Rat) : List (Int × Rat) :=
  days.map (fun e => if e.1 = k then (e.1, e.2 + v) else e)

/-- Translation of the per-day series construction (src/app/dashboard/page.tsx
lines 696-723): bounded selectors reuse the period range, the all-time selector
falls back to the trailing 14 local days, then approved totals are bucketed by
local day key. -/
def serieAprovadas (pedidos : List Pedido) (eid : String)
    (periodo : PeriodoFiltro) (now : Int) : List (Int × Rat) :=
  let r := getPeriodoRange periodo now
  let aprovados := aprovadosQuery pedidos eid r.1 r.2
  let shouldUseRange :=
    periodo == .hoje || periodo == .semana || periodo == .mes
  let seriesFrom :=
    if shouldUseRange then r.1.getD (startOfDayLocal (addDaysLocal now (-13)))
    else startOfDayLocal (addDaysLocal now (-13))
  let seriesTo :=
    if shouldUseRange then r.2.getD (startOfDayLocal (addDaysLocal now 1))
    else startOfDayLocal (addDaysLocal now 1)
  let days := (buildDays (startOfDayLocal seriesFrom) seriesTo).map
    (fun d => (d, (0 : Rat)))
  aprovados.foldl (fun ds p => bump ds (startOfDayLocal p.criadoEm) p.total) days

/-- Spec-side window predicate, in the claim's words: creation time within the
selected window (today, trailing 7 days, trailing 30 days, or unbounded). -/
def windowProp (periodo : PeriodoFiltro) (now t : Int) : Prop :=
  match periodo with
  | .hoje => startOfDayLocal now ≤ t ∧ t < startOfDayLocal now + dayMs
  | .semana =>
      startOfDayLocal now - 6 * dayMs ≤ t ∧ t < startOfDayLocal now + dayMs
  | .mes =>
      startOfDayLocal now - 29 * dayMs ≤ t ∧ t < startOfDayLocal now + dayMs
  | .total => True

instance (periodo : PeriodoFiltro) (now t : Int) :
    Decidable (windowProp periodo now t) := by
  unfold windowProp
  cases periodo <;> exact inferInstance

/-- Spec-side series span in days: the selected window's day count, or the
fixed trailing 14-day fallback for the all-time selector. -/
def nDays (periodo : PeriodoFiltro) : Nat :=
  match periodo with
  | .hoje => 1
  | .semana => 7
  | .mes => 30
  | .total => 14

lemma dayMs_pos : (0 : Int) < dayMs := by norm_num [dayMs]

lemma sod_add_mul (t k : Int) :
    startOfDayLocal (t + k * dayMs) = startOfDayLocal t + k * dayMs := by
  unfold startOfDayLocal
  rw [Int.add_mul_ediv_right t k (by norm_num [dayMs])]
  ring

lemma sod_sod (t : Int) :
    startOfDayLocal (startOfDayLocal t) = startOfDayLocal t := by
  unfold startOfDayLocal
  rw [Int.mul_ediv_cancel_left _ (by norm_num [dayMs])]

lemma sod_shift (t k : Int) :
    startOfDayLocal (addDaysLocal t k) = startOfDayLocal t + k * dayMs := by
  unfold addDaysLocal
  exact sod_add_mul t k

lemma sod_aligned_shift (t k : Int) :
    startOfDayLocal (startOfDayLocal t + k * dayMs) =
      startOfDayLocal t + k * dayMs := by
  rw [sod_add_mul, sod_sod]

lemma buildDays_span (a : Int) (n : Nat) :
    buildDays a (a + n * dayMs) =
      (List.range n).map (fun i : Nat => a + (i : Int) * dayMs) := by
  induction n generalizing a with
  | zero =>
    have h0 : ¬ a < a + ((0 : Nat) : Int) * dayMs := by
      push_cast
      omega
    rw [buildDays, dif_neg h0]
    simp
  | succ m ih =>
    have hpos : (0 : Int) < ((m : Int) + 1) * dayMs := by
      have := dayMs_pos
      positivity
    have hlt : a < a + ((m + 1 : Nat) : Int) * dayMs := by
      push_cast
      linarith
    rw [buildDays, dif_pos hlt]
    have harg : a + ((m + 1 : Nat) : Int) * dayMs =
        (a + dayMs) + ((m : Nat) : Int) * dayMs := by
      push_cast
      ring
    rw [harg, ih (a + dayMs), List.range_succ_eq_map]
    simp only [List.map_cons, List.map_map]
    refine List.cons_eq_cons.mpr ⟨by push_cast; ring, ?_⟩
    apply List.map_congr_left
    intro i _
    simp only [Function.comp]
    push_cast
    ring

lemma buildDays_length (a : Int) (n : Nat) :
    (buildDays a (a + n * dayMs)).length = n := by
  rw [buildDays_span, List.length_map, List.length_range]

lemma sod_aligned_neg (t k : Int) :
    startOfDayLocal (startOfDayLocal t + -(k * dayMs)) =
      startOfDayLocal t + -(k * dayMs) := by
  have h := sod_aligned_shift t (-k)
  have he : (-k) * dayMs = -(k * dayMs) := by ring
  rw [he] at h
  exact h

lemma map_fst_bump (days : List (Int × Rat)) (k : Int) (v : Rat) :
    (bump days k v).map Prod.fst = days.map Prod.fst := by
  unfold bump
  rw [List.map_map]
  apply List.map_congr_left
  intro e _
  by_cases h : e.1 = k <;> simp [h]

lemma foldl_bump_fst (l : List Pedido) (days : List (Int × Rat)) :
    (l.foldl (fun ds p => bump ds (startOfDayLocal p.criadoEm) p.total)
      days).map Prod.fst = days.map Prod.fst := by
  induction l generalizing days with
  | nil => rfl
  | cons p t ih => rw [List.foldl_cons, ih, map_fst_bump]

lemma bool_eq_of_iff {x y : Bool} (h : x = true ↔ y = true) : x = y := by
  cases x <;> cases y <;> simp_all

lemma foldl_add_total (l : List Pedido) :
    l.foldl (fun acc p => acc + p.total) 0 = (l.map Pedido.total).sum := by
  rw [List.sum_eq_foldl, List.foldl_map]

lemma aprovadosQuery_eq_spec (pedidos : List Pedido) (eid : String)
    (periodo : PeriodoFiltro) (now : Int) :
    aprovadosQuery pedidos eid (getPeriodoRange periodo now).1
        (getPeriodoRange periodo now).2 =
      pedidos.filter (fun p => decide (p.empresaId = eid ∧ p.status = aprovado ∧
        windowProp periodo now p.criadoEm)) := by
  unfold aprovadosQuery
  apply List.filter_congr
  intro p _
  apply bool_eq_of_iff
  cases periodo <;>
    simp [getPeriodoRange, windowProp, sod_shift, beq_iff_eq, and_assoc]

/-- C7: the sales figure sums exactly the approved orders created within the
selected window; the per-day series spans the window's days and, for the
all-time selector, a fixed trailing 14-day window ending today. -/
theorem vendasAprovadas_serie_spec (pedidos : List Pedido) (eid : String)
    (periodo : PeriodoFiltro) (now : Int) :
    vendasAprovadas pedidos eid periodo now =
      ((pedidos.filter (fun p => decide (p.empresaId = eid ∧
        p.status = aprovado ∧ windowProp periodo now p.criadoEm))).map
        Pedido.total).sum ∧
    (serieAprovadas pedidos eid periodo now).map Prod.fst =
      buildDays (startOfDayLocal now - ((nDays periodo : Int) - 1) * dayMs)
        (startOfDayLocal now + dayMs) ∧
    (serieAprovadas pedidos eid periodo now).length = nDays periodo ∧
    nDays .total = 14 := by
  have hkeys : (serieAprovadas pedidos eid periodo now).map Prod.fst =
      buildDays (startOfDayLocal now - ((nDays periodo : Int) - 1) * dayMs)
        (startOfDayLocal now + dayMs) := by
    unfold serieAprovadas
    rw [foldl_bump_fst, List.map_map]
    have hid : (Prod.fst ∘ fun d : Int => (d, (0 : Rat))) = id := by
      funext d
      rfl
    rw [hid, List.map_id]
    cases periodo with
    | hoje =>
      simp [getPeriodoRange, nDays, sod_shift, sod_aligned_shift, sod_sod]
    | semana =>
      simp [getPeriodoRange, nDays, sod_shift, sod_aligned_shift, sod_sod]
      congr 1
      rw [sod_aligned_neg]
      ring
    | mes =>
      simp [getPeriodoRange, nDays, sod_shift, sod_aligned_shift, sod_sod]
      congr 1
      rw [sod_aligned_neg]
      ring
    | total =>
      simp [getPeriodoRange, nDays, sod_shift, sod_aligned_shift, sod_sod]
      congr 1
      rw [sod_aligned_neg]
      ring
  refine ⟨?_, hkeys, ?_, rfl⟩
  · unfold vendasAprovadas
    rw [foldl_add_total, aprovadosQuery_eq_spec]
  · have h1 : (serieAprovadas pedidos eid periodo now).length =
        ((serieAprovadas pedidos eid periodo now).map Prod.fst).length :=
      (List.length_map _ _).symm
    rw [h1, hkeys]
    have harg : startOfDayLocal now + dayMs =
        (startOfDayLocal now - ((nDays periodo : Int) - 1) * dayMs) +
          (nDays periodo : Nat) * dayMs := by
      ring
    rw [harg, buildDays_length]

end Dashboard

namespace Notificacoes

/-- Notification row (src/app/dashboard/_components/NovoPedidoPopup.tsx,
type NotificacaoRow). -/
structure NotificacaoRow where
  id : String
  empresaId : String
  pedidoId : String
  tipo : String
  lida : Bool
  criadoEm : Int
  deriving Repr, DecidableEq

/-- Descending creation-time ordering used by the unread poll
(`.order("criado_em", \x7b ascending: false \x7d)`). -/
def recenteLe (a b : NotificacaoRow) : Bool :=
  b.criadoEm ≤ a.criadoEm

/-- Row filter of `buscarUltimaNaoLida` (NovoPedidoPopup.tsx lines 58-70):
same company, type `novo_pedido`, unread. -/
def naoLidaFilter (empresaId : String) (n : NotificacaoRow) : Bool :=
  n.empresaId == empresaId && n.tipo == "novo_pedido" && !n.lida

/-- Translation of `buscarUltimaNaoLida` (NovoPedidoPopup.tsx lines 58-70):
filter, order by creation time descending, `.limit(1)`, then first row or
null. -/
def buscarUltimaNaoLida (empresaId : String) (rows : List NotificacaoRow) :
    Option NotificacaoRow :=
  (((rows.filter (naoLidaFilter empresaId)).mergeSort recenteLe).take 1).head?

lemma recenteLe_trans (a b c : NotificacaoRow) (hab : recenteLe a b = true)
    (hbc : recenteLe b c = true) : recenteLe a c = true := by
  simp only [recenteLe, decide_eq_true_eq] at *
  omega

lemma recenteLe_total (a b : NotificacaoRow) :
    (recenteLe a b || recenteLe b a) = true := by
  simp only [recenteLe, Bool.or_eq_true, decide_eq_true_eq]
  omega

lemma head?_take_one {α : Type} (l : List α) : (l.take 1).head? = l.head? := by
  cases l <;> rfl

/-- What a successful unread poll returns: a row of the filtered set that is
most recent among all unread new-order rows of the company. -/
lemma buscarUltimaNaoLida_some (empresaId : String)
    (rows : List NotificacaoRow) (n : NotificacaoRow)
    (h : buscarUltimaNaoLida empresaId rows = some n) :
    n ∈ rows ∧ naoLidaFilter empresaId n = true ∧
      ∀ m ∈ rows, naoLidaFilter empresaId m = true →
        m.criadoEm ≤ n.criadoEm := by
  unfold buscarUltimaNaoLida at h
  rw [head?_take_one] at h
  have hperm := List.mergeSort_perm (rows.filter (naoLidaFilter empresaId))
    recenteLe
  have hsort := List.sorted_mergeSort recenteLe_trans recenteLe_total
    (rows.filter (naoLidaFilter empresaId))
  cases hm : (rows.filter (naoLidaFilter empresaId)).mergeSort recenteLe with
  | nil =>
    rw [hm] at h
    simp at h
  | cons n0 tail =>
    rw [hm] at h
    simp only [List.head?_cons, Option.some.injEq] at h
    subst h
    rw [hm] at hperm hsort
    have hmemf : n0 ∈ rows.filter (naoLidaFilter empresaId) :=
      hperm.mem_iff.mp (List.mem_cons_self n0 tail)
    rw [List.mem_filter] at hmemf
    refine ⟨hmemf.1, hmemf.2, ?_⟩
    intro m hmem hfil
    have hmf : m ∈ n0 :: tail :=
      hperm.mem_iff.mpr (List.mem_filter.mpr ⟨hmem, hfil⟩)
    rcases List.mem_cons.mp hmf with heq | htail
    · rw [heq]
    · have := (List.pairwise_cons.mp hsort).1 m htail
      simpa [recenteLe] using this

/-- Dashboard-session subscription state: the persistent `subscribedRef` flag
and how many realtime channels have been created in this session. -/
structure SessState where
  subscribed : Bool
  channels : Nat
  deriving Repr, DecidableEq

/-- Channel-creation effect of one `init` invocation (NovoPedidoPopup.tsx
lines 82-123): early return when there is no session user or no owned
company; otherwise the subscribe step runs only while `subscribedRef.current`
is still false, setting it to true and opening one channel. -/
def initStep (hasUser hasEmpresa : Bool) (st : SessState) : SessState :=
  if !hasUser then st
  else if !hasEmpresa then st
  else if st.subscribed then st
  else ⟨true, st.channels + 1⟩

/-- Fresh dashboard session: `subscribedRef.current` false, no channel. -/
def initialSess : SessState := ⟨false, 0⟩

lemma initStep_inv (hasUser hasEmpresa : Bool) (st : SessState)
    (h : st.channels ≤ 1 ∧ (st.subscribed = false → st.channels = 0)) :
    (initStep hasUser hasEmpresa st).channels ≤ 1 ∧
      ((initStep hasUser hasEmpresa st).subscribed = false →
        (initStep hasUser hasEmpresa st).channels = 0) := by
  cases hasUser <;> cases hasEmpresa <;>
    cases hsub : st.subscribed <;>
    simp_all [initStep]

lemma foldl_initStep_inv (invocations : List (Bool × Bool)) (st : SessState)
    (h : st.channels ≤ 1 ∧ (st.subscribed = false → st.channels = 0)) :
    (invocations.foldl (fun s i => initStep i.1 i.2 s) st).channels ≤ 1 := by
  induction invocations generalizing st with
  | nil => exact h.1
  | cons i t ih =>
    rw [List.foldl_cons]
    exact ih _ (initStep_inv i.1 i.2 st h)

/-- C5: within one session, any sequence of `init` invocations creates at most
one realtime channel, and an invocation that reaches the subscribe step after
the flag is set leaves the state unchanged. -/
theorem initStep_idempotent_subscription (invocations : List (Bool × Bool)) :
    (invocations.foldl (fun s i => initStep i.1 i.2 s) initialSess).channels ≤ 1 ∧
    ∀ (hasUser hasEmpresa : Bool) (st : SessState), st.subscribed = true →
      initStep hasUser hasEmpresa st = st := by
  constructor
  · exact foldl_initStep_inv invocations initialSess (by simp [initialSess])
  · intro hasUser hasEmpresa st h
    cases hasUser <;> cases hasEmpresa <;> simp [initStep, h]

/-- Translation of `marcarComoLida` (NovoPedidoPopup.tsx lines 43-45):
`.update(\x7b lida: true \x7d).eq("id", notifId)`. -/
def marcarComoLida (rows : List NotificacaoRow) (notifId : String) :
    List NotificacaoRow :=
  rows.map (fun n => if n.id == notifId then { n with lida := true } else n)

/-- Popup visibility state (`open` and `current` of NovoPedidoPopup). -/
structure PopupState where
  isOpen : Bool
  current : Option NotificacaoRow
  deriving Repr, DecidableEq

/-- The four ways to dismiss the popup (NovoPedidoPopup.tsx lines 146-209):
overlay click, close button, the Ok button, and the Ver-pedido button. -/
inductive CloseAction where
  | overlay
  | closeButton
  | ok
  | verPedido
  deriving Repr, DecidableEq

/-- Primitive steps a dismissal handler performs, in program order. -/
inductive CloseEvent where
  | markRead (notifId : String)
  | closePopup
  | navigate (path : String)
  deriving Repr, DecidableEq

/-- Per-handler statement sequence (NovoPedidoPopup.tsx lines 146-209): every
handler awaits `marcarComoLida(current.id)` first, then closes the popup;
`Ver pedido` additionally navigates to the orders page. -/
def closeTrace (a : CloseAction) (n : NotificacaoRow) : List CloseEvent :=
  match a with
  | .overlay => [.markRead n.id, .closePopup]
  | .closeButton => [.markRead n.id, .closePopup]
  | .ok => [.markRead n.id, .closePopup]
  | .verPedido => [.markRead n.id, .closePopup, .navigate "/dashboard/pedidos"]

/-- Interpretation of one handler step on (popup state, notification table). -/
def applyCloseEvent (s : PopupState × List NotificacaoRow) (e : CloseEvent) :
    PopupState × List NotificacaoRow :=
  match e with
  | .markRead nid => (s.1, marcarComoLida s.2 nid)
  | .closePopup => (⟨false, none⟩, s.2)
  | .navigate _ => s

/-- Combined effect of one dismissal handler run. -/
def runClose (a : CloseAction) (n : NotificacaoRow) (st : PopupState)
    (rows : List NotificacaoRow) : PopupState × List NotificacaoRow :=
  (closeTrace a n).foldl applyCloseEvent (st, rows)

lemma marcarComoLida_read (rows : List NotificacaoRow) (nid : String) :
    ∀ m ∈ marcarComoLida rows nid, m.id = nid → m.lida = true := by
  intro m hm hid
  unfold marcarComoLida at hm
  rw [List.mem_map] at hm
  obtain ⟨n, _, hn⟩ := hm
  by_cases h : n.id == nid
  · rw [if_pos h] at hn
    rw [← hn]
  · rw [if_neg h] at hn
    subst hn
    exact absurd (beq_iff_eq.mpr hid) h

/-- C10: every dismissal path first marks the surfaced notification as read
and then closes the popup, so after any dismissal the popup is closed, every
row with the surfaced id is read, and the unread poll can never surface that
notification again. -/
theorem close_marks_read_first (a : CloseAction) (n : NotificacaoRow)
    (st : PopupState) (rows : List NotificacaoRow) :
    (closeTrace a n).head? = some (.markRead n.id) ∧
    .closePopup ∈ (closeTrace a n).tail ∧
    (runClose a n st rows).1.isOpen = false ∧
    (runClose a n st rows).1.current = none ∧
    (∀ m ∈ (runClose a n st rows).2, m.id = n.id → m.lida = true) ∧
    (∀ empresaId m,
      buscarUltimaNaoLida empresaId (runClose a n st rows).2 = some m →
        m.id ≠ n.id) := by
  have hrows : (runClose a n st rows).2 = marcarComoLida rows n.id := by
    cases a <;> rfl
  refine ⟨by cases a <;> rfl, by cases a <;> simp [closeTrace],
    by cases a <;> rfl, by cases a <;> rfl, ?_, ?_⟩
  · rw [hrows]
    exact marcarComoLida_read rows n.id
  · intro empresaId m hm hid
    obtain ⟨hmem, hfil, _⟩ := buscarUltimaNaoLida_some empresaId _ m hm
    have hread : m.lida = true := by
      rw [hrows] at hmem
      exact marcarComoLida_read rows n.id m hmem hid
    simp [naoLidaFilter, hread] at hfil

/-- One sequential run of `init` (NovoPedidoPopup.tsx lines 82-123) as an
event trace: session check, owner-company lookup, the unread poll surfacing
its result when present, then the guarded realtime subscribe step. -/
inductive InitEvent where
  | getSession
  | poll (result : Option NotificacaoRow)
  | surfaced (n : NotificacaoRow)
  | subscribe
  deriving Repr, DecidableEq

/-- Trace of one `init` run: `user` is the session user id (none when
`getSession` yields no session), `empresaOf` the owner-company lookup,
`subscribed` the `subscribedRef` flag, `rows` the notification table. -/
def initTrace (user : Option String) (empresaOf : String → Option String)
    (subscribed : Bool) (rows : List NotificacaoRow) : List InitEvent :=
  match user with
  | none => [.getSession]
  | some uid =>
    match empresaOf uid with
    | none => [.getSession]
    | some eid =>
      let pendente := buscarUltimaNaoLida eid rows
      [.getSession, .poll pendente] ++
        (match pendente with
          | some n => [.surfaced n]
          | none => []) ++
        (if subscribed then [] else [.subscribe])

lemma subscribe_mem_of_split {pre post tr : List InitEvent}
    (heq : tr = pre ++ .subscribe :: post) : InitEvent.subscribe ∈ tr := by
  rw [heq]
  exact List.mem_append_right _ (List.mem_cons_self _ _)

lemma poll_in_pre_short {v : Option NotificacaoRow} {pre post : List InitEvent}
    (heq : [InitEvent.getSession, InitEvent.poll v, InitEvent.subscribe] =
      pre ++ InitEvent.subscribe :: post) :
    ∃ r, InitEvent.poll r ∈ pre := by
  rcases pre with _ | ⟨a, _ | ⟨b, _ | ⟨c, rest⟩⟩⟩
  · simp at heq
  · simp at heq
  · refine ⟨v, ?_⟩
    simp only [List.cons_append, List.nil_append, List.cons.injEq] at heq
    rw [heq.2.1]
    simp
  · exfalso
    simp only [List.cons_append, List.cons.injEq] at heq
    have h4 := heq.2.2.2
    simp at h4

lemma poll_in_pre_long {v : Option NotificacaoRow} {n0 : NotificacaoRow}
    {pre post : List InitEvent}
    (heq : [InitEvent.getSession, InitEvent.poll v, InitEvent.surfaced n0,
        InitEvent.subscribe] = pre ++ InitEvent.subscribe :: post) :
    ∃ r, InitEvent.poll r ∈ pre := by
  rcases pre with _ | ⟨a, _ | ⟨b, _ | ⟨c, _ | ⟨d, rest⟩⟩⟩⟩
  · simp at heq
  · simp at heq
  · simp at heq
  · refine ⟨v, ?_⟩
    simp only [List.cons_append, List.nil_append, List.cons.injEq] at heq
    rw [heq.2.1]
    simp
  · exfalso
    simp only [List.cons_append, List.cons.injEq] at heq
    have h5 := heq.2.2.2.2
    simp at h5

/-- C4: in every `init` run, any subscribe step is preceded by an unread poll;
the poll surfaces at most one notification, and a surfaced notification is the
company's most recent unread new-order notification. -/
theorem init_polls_before_subscribe (user : Option String)
    (empresaOf : String → Option String) (subscribed : Bool)
    (rows : List NotificacaoRow) :
    (∀ pre post,
      initTrace user empresaOf subscribed rows = pre ++ .subscribe :: post →
        ∃ r, InitEvent.poll r ∈ pre) ∧
    ((initTrace user empresaOf subscribed rows).filter
      (fun e => match e with
        | .surfaced _ => true
        | _ => false)).length ≤ 1 ∧
    (∀ uid eid n, user = some uid → empresaOf uid = some eid →
      InitEvent.surfaced n ∈ initTrace user empresaOf subscribed rows →
        buscarUltimaNaoLida eid rows = some n ∧
          n ∈ rows ∧ naoLidaFilter eid n = true ∧
          ∀ m ∈ rows, naoLidaFilter eid m = true →
            m.criadoEm ≤ n.criadoEm) := by
  refine ⟨?_, ?_, ?_⟩
  · intro pre post heq
    cases user with
    | none =>
      exfalso
      have hmem := subscribe_mem_of_split heq
      simp [initTrace] at hmem
    | some uid =>
      cases he : empresaOf uid with
      | none =>
        exfalso
        have hmem := subscribe_mem_of_split heq
        simp [initTrace, he] at hmem
      | some eid =>
        cases subscribed with
        | true =>
          exfalso
          have hmem := subscribe_mem_of_split heq
          cases hp : buscarUltimaNaoLida eid rows <;>
            simp [initTrace, he, hp] at hmem
        | false =>
          cases hp : buscarUltimaNaoLida eid rows with
          | none =>
            have htr : initTrace (some uid) empresaOf false rows =
                [.getSession, .poll none, .subscribe] := by
              simp [initTrace, he, hp]
            rw [htr] at heq
            exact poll_in_pre_short heq
          | some n0 =>
            have htr : initTrace (some uid) empresaOf false rows =
                [.getSession, .poll (some n0), .surfaced n0, .subscribe] := by
              simp [initTrace, he, hp]
            rw [htr] at heq
            exact poll_in_pre_long heq
  · cases user with
    | none => simp [initTrace]
    | some uid =>
      cases he : empresaOf uid with
      | none => simp [initTrace, he]
      | some eid =>
        cases hp : buscarUltimaNaoLida eid rows <;>
          cases subscribed <;>
          simp [initTrace, he, hp]
  · intro uid eid n huser he hmem
    subst huser
    cases hp : buscarUltimaNaoLida eid rows with
    | none =>
      exfalso
      cases subscribed <;> simp [initTrace, he, hp] at hmem
    | some n0 =>
      have hn : n = n0 := by
        cases subscribed <;> simp [initTrace, he, hp] at hmem <;> exact hmem
      subst hn
      obtain ⟨h1, h2, h3⟩ := buscarUltimaNaoLida_some eid rows n hp
      exact ⟨rfl, h1, h2, h3⟩

end Notificacoes

namespace Clientes

/-- Shared customer profile row (src/app/dashboard/clientes/page.tsx, type
ClienteUsuarioRow restricted to the columns the edit touches). -/
structure ClienteUsuario where
  usuarioId : String
  nome : Option String
  telefone : Option String
  deriving Repr, DecidableEq

/-- Update payload of the edit handler (src/app/dashboard/clientes/page.tsx
lines 388-391): trimmed name, normalized phone or null. -/
structure Payload where
  nome : String
  telefone : Option String
  deriving Repr, DecidableEq

/-- Outcome of the logged-in-customer edit branch. -/
inductive EditResult where
  | ok
  | rlsError
  deriving Repr, DecidableEq

/-- Backend update on the shared `clientes` table: rows matching the id AND
visible to the caller under row-level security (`visible`) receive the
payload; the call returns the list of affected rows (`.select(...)` without
`maybeSingle`). -/
def updateUsuario (visible : ClienteUsuario → Bool)
    (rows : List ClienteUsuario) (uid : String) (payload : Payload) :
    List ClienteUsuario × List ClienteUsuario :=
  (rows.map (fun r =>
      if r.usuarioId == uid && visible r then
        { r with nome := some payload.nome, telefone := payload.telefone }
      else r),
    (rows.filter (fun r => r.usuarioId == uid && visible r)).map (fun r =>
      { r with nome := some payload.nome, telefone := payload.telefone }))

/-- Translation of the logged-in-customer branch of `handleSubmit`
(src/app/dashboard/clientes/page.tsx lines 402-417): run the update, read
`updatedRows?.[0] ?? null`, and raise the RLS error when no row came back. -/
def handleEditUsuario (visible : ClienteUsuario → Bool)
    (rows : List ClienteUsuario) (uid : String) (payload : Payload) :
    EditResult :=
  match (updateUsuario visible rows uid payload).2.head? with
  | none => .rlsError
  | some _ => .ok

/-- C9: editing a logged-in customer reports an error exactly when the update
affected zero rows (treated as an authorization failure), and success exactly
when at least one visible row matched. -/
theorem handleEditUsuario_spec (visible : ClienteUsuario → Bool)
    (rows : List ClienteUsuario) (uid : String) (payload : Payload) :
    (handleEditUsuario visible rows uid payload = .rlsError ↔
      ∀ r ∈ rows, ¬(r.usuarioId = uid ∧ visible r = true)) ∧
    (handleEditUsuario visible rows uid payload = .ok ↔
      ∃ r ∈ rows, r.usuarioId = uid ∧ visible r = true) := by
  unfold handleEditUsuario updateUsuario
  cases hf : rows.filter (fun r => r.usuarioId == uid && visible r) with
  | nil =>
    have hcls := List.filter_eq_nil_iff.mp hf
    simp only [List.map_nil, List.head?_nil]
    constructor
    · simp only [true_iff]
      intro r hr ⟨h1, h2⟩
      exact hcls r hr (by simp [h1, h2])
    · simp only [reduceCtorEq, false_iff, not_exists]
      intro r hr
      exact hcls r hr.1 (by simp [hr.2.1, hr.2.2])
  | cons r0 tl =>
    have hr0 : r0 ∈ rows.filter (fun r => r.usuarioId == uid && visible r) := by
      rw [hf]
      exact List.mem_cons_self _ _
    rw [List.mem_filter] at hr0
    obtain ⟨hmem, hcond⟩ := hr0
    rw [Bool.and_eq_true, beq_iff_eq] at hcond
    simp only [List.map_cons, List.head?_cons]
    constructor
    · simp only [reduceCtorEq, false_iff, not_forall]
      exact ⟨r0, hmem, by tauto⟩
    · simp only [true_iff]
      exact ⟨r0, hmem, hcond.1, hcond.2⟩

end Clientes

namespace Lifecycle

open Pedidos PedidoStatus

/-- Order line item as persisted (`pedidos_itens`: order id, product id,
positive integer quantity). -/
structure ItemPedido where
  pedidoId : String
  produtoId : String
  quantidade : Nat
  deriving Repr, DecidableEq

/-- Backend state touched by the approve transition: order statuses, line
items, and per-product integer stock (spec: integer, floored at zero). -/
structure Estado where
  pedidos : List (String × PedidoStatus)
  itens : List ItemPedido
  estoque : List (String × Nat)
  deriving Repr, DecidableEq

/-- Errors of the approve transition (spec section 7 taxonomy). -/
inductive LifecycleError where
  | notFound
  | invalidTransition
  deriving Repr, DecidableEq

/-- Status of an order in the state. -/
def lookupStatus (st : Estado) (oid : String) : Option PedidoStatus :=
  (st.pedidos.find? (fun e => e.1 = oid)).map Prod.snd

/-- Current stock of a product (0 when the product is absent). -/
def getEstoque (st : Estado) (pid : String) : Nat :=
  ((st.estoque.find? (fun e => e.1 = pid)).map Prod.snd).getD 0

/-- One conditional stock decrement, floored at zero (`Nat` subtraction). -/
def decEstoque (estoque : List (String × Nat)) (pid : String) (q : Nat) :
    List (String × Nat) :=
  estoque.map (fun e => if e.1 = pid then (e.1, e.2 - q) else e)

/-- Sequential stock decrement over an order's line items. -/
def decItens (items : List ItemPedido) (es : List (String × Nat)) :
    List (String × Nat) :=
  items.foldl (fun es it => decEstoque es it.produtoId it.quantidade) es

/-- State produced by a successful approve: order marked approved, stock
decremented line by line. -/
def aprovadoEstado (st : Estado) (oid : String) : Estado :=
  { pedidos := st.pedidos.map (fun e => if e.1 = oid then (e.1, aprovado) else e)
    itens := st.itens
    estoque := decItens (st.itens.filter (fun it => it.pedidoId == oid)) st.estoque }

/-- Modelled from the spec: the Postgres function `rpc_aprovar_pedido` invoked
by `aprovarPedido` (src/app/dashboard/pedidos/page.tsx lines 267-280) is not
part of the repository sources, so its body is taken from spec section 4.1
"Approve order": precondition status `submitted` (`enviado_whatsapp`); effect:
decrement each line item's product stock by its quantity, floored at zero,
and set the status to `approved`; invoking it on an already-terminal order
fails with `InvalidTransitionError` and changes nothing. -/
def rpcAprovarPedido (st : Estado) (oid : String) :
    Except LifecycleError Estado :=
  match lookupStatus st oid with
  | none => .error .notFound
  | some s =>
    if s ≠ enviadoWhatsapp then .error .invalidTransition
    else .ok (aprovadoEstado st oid)

lemma find?_decEstoque (es : List (String × Nat)) (pid : String) (q : Nat)
    (k : String) :
    (decEstoque es pid q).find? (fun e => e.1 = k) =
      (es.find? (fun e => e.1 = k)).map
        (fun e => if e.1 = pid then (e.1, e.2 - q) else e) := by
  induction es with
  | nil => rfl
  | cons e t ih =>
    by_cases hp : e.1 = pid
    · by_cases hk : e.1 = k
      · have hkp : k = pid := by rw [← hk, hp]
        subst hkp
        simp [decEstoque, List.find?_cons, hp, hk]
      · have hpk : ¬ pid = k := by
          rw [← hp]
          exact hk
        simpa [decEstoque, List.find?_cons, hp, hk, hpk] using ih
    · by_cases hk : e.1 = k
      · have hkp : ¬ k = pid := by
          rw [← hk]
          exact hp
        simp [decEstoque, List.find?_cons, hp, hk, hkp]
      · simpa [decEstoque, List.find?_cons, hp, hk] using ih

lemma getEstoque_decEstoque_self (st : Estado) (es : List (String × Nat))
    (pid : String) (q : Nat) :
    getEstoque { st with estoque := decEstoque es pid q } pid =
      getEstoque { st with estoque := es } pid - q := by
  unfold getEstoque
  rw [find?_decEstoque]
  cases hf : es.find? (fun e => e.1 = pid) with
  | none => simp
  | some e =>
    have he : e.1 = pid := by
      have := List.find?_some hf
      simpa using this
    simp [he]

lemma getEstoque_decEstoque_other (st : Estado) (es : List (String × Nat))
    (pid : String) (q : Nat) (k : String) (h : k ≠ pid) :
    getEstoque { st with estoque := decEstoque es pid q } k =
      getEstoque { st with estoque := es } k := by
  unfold getEstoque
  rw [find?_decEstoque]
  cases hf : es.find? (fun e => e.1 = k) with
  | none => rfl
  | some e =>
    have he : e.1 = k := by
      have := List.find?_some hf
      simpa using this
    simp [he, h]

lemma foldl_dec_untouched (items : List ItemPedido) (es : List (String × Nat))
    (st : Estado) (pid : String)
    (h : ∀ it ∈ items, it.produtoId ≠ pid) :
    getEstoque { st with estoque := decItens items es } pid =
      getEstoque { st with estoque := es } pid := by
  induction items generalizing es with
  | nil => rfl
  | cons it0 t ih =>
    have hstep : decItens (it0 :: t) es =
        decItens t (decEstoque es it0.produtoId it0.quantidade) := rfl
    rw [hstep, ih _ (fun x hx => h x (List.mem_cons_of_mem _ hx))]
    exact getEstoque_decEstoque_other st es it0.produtoId it0.quantidade pid
      (Ne.symm (h it0 (List.mem_cons_self _ _)))

lemma foldl_dec_self (items : List ItemPedido) (st : Estado)
    (hnd : (items.map ItemPedido.produtoId).Nodup) :
    ∀ es, ∀ it ∈ items,
      getEstoque { st with estoque := decItens items es } it.produtoId =
        getEstoque { st with estoque := es } it.produtoId - it.quantidade := by
  induction items with
  | nil =>
    intro es it h
    cases h
  | cons it0 t ih =>
    intro es it hmem
    have hnodup : (∀ x ∈ t, ¬ x.produtoId = it0.produtoId) ∧
        (t.map ItemPedido.produtoId).Nodup := by simpa using hnd
    have hstep : decItens (it0 :: t) es =
        decItens t (decEstoque es it0.produtoId it0.quantidade) := rfl
    rw [hstep]
    rcases List.mem_cons.mp hmem with heq | htail
    · subst heq
      have hnot : ∀ x ∈ t, x.produtoId ≠ it.produtoId := by
        intro x hx hcontra
        exact hnodup.1 x hx hcontra
      rw [foldl_dec_untouched t _ st it.produtoId hnot]
      exact getEstoque_decEstoque_self st es it.produtoId it.quantidade
    · rw [ih hnodup.2 _ it htail]
      rw [getEstoque_decEstoque_other st es it0.produtoId it0.quantidade
        it.produtoId (hnodup.1 it htail)]

lemma find?_map_set_status (l : List (String × PedidoStatus)) (oid : String)
    (h : (l.find? (fun e => e.1 = oid)).isSome) :
    (l.map (fun e => if e.1 = oid then (e.1, aprovado) else e)).find?
      (fun e => e.1 = oid) = some (oid, aprovado) := by
  induction l with
  | nil => simp at h
  | cons e t ih =>
    by_cases hk : e.1 = oid
    · simp [hk]
    · have ht : (t.find? (fun e => e.1 = oid)).isSome := by
        simpa [List.find?_cons, hk] using h
      simpa [hk] using ih ht

lemma lookupStatus_aprovadoEstado (st : Estado) (oid : String)
    (h : (lookupStatus st oid).isSome) :
    lookupStatus (aprovadoEstado st oid) oid = some aprovado := by
  have hsome : (st.pedidos.find? (fun e => e.1 = oid)).isSome := by
    unfold lookupStatus at h
    cases hfind : st.pedidos.find? (fun e => e.1 = oid) with
    | none =>
      rw [hfind] at h
      simp at h
    | some e => rfl
  unfold lookupStatus aprovadoEstado
  simp only [find?_map_set_status st.pedidos oid hsome, Option.map_some']

/-- C1: approving a submitted order succeeds exactly once: each line item's
product stock drops by that line's quantity (integer subtraction floored at
zero), products not referenced by the order keep their stock, the order
becomes approved, and invoking approve again on the now-terminal order fails
with `InvalidTransitionError`, producing no new state and hence no further
decrement.  The `hnd` hypothesis says the order's line items reference
distinct products. -/
theorem aprovarPedido_spec (st : Estado) (oid : String)
    (hsub : lookupStatus st oid = some enviadoWhatsapp)
    (hnd : ((st.itens.filter (fun it => it.pedidoId == oid)).map
      ItemPedido.produtoId).Nodup) :
    ∃ st2, rpcAprovarPedido st oid = .ok st2 ∧
      lookupStatus st2 oid = some aprovado ∧
      (∀ it ∈ st.itens, it.pedidoId = oid →
        getEstoque st2 it.produtoId =
          getEstoque st it.produtoId - it.quantidade) ∧
      (∀ pid : String,
        (∀ it ∈ st.itens, it.pedidoId = oid → it.produtoId ≠ pid) →
        getEstoque st2 pid = getEstoque st pid) ∧
      rpcAprovarPedido (aprovadoEstado st oid) oid =
        .error .invalidTransition := by
  have hstatus : lookupStatus (aprovadoEstado st oid) oid = some aprovado :=
    lookupStatus_aprovadoEstado st oid (by rw [hsub]; rfl)
  refine ⟨aprovadoEstado st oid, ?_, hstatus, ?_, ?_, ?_⟩
  · simp [rpcAprovarPedido, hsub, aprovadoEstado, decItens]
  · intro it hmem hoid
    have hfil : it ∈ st.itens.filter (fun it => it.pedidoId == oid) :=
      List.mem_filter.mpr ⟨hmem, by simp [hoid]⟩
    exact foldl_dec_self _ st hnd st.estoque it hfil
  · intro pid hall
    exact foldl_dec_untouched _ st.estoque st pid (fun x hx =>
      hall x (List.mem_filter.mp hx).1
        (by simpa using (List.mem_filter.mp hx).2))
  · simp [rpcAprovarPedido, hstatus]

/-- Witness for `aprovarPedido_spec`: a submitted one-line order of quantity 2
on a product with stock 3. -/
theorem aprovarPedido_spec_witness :
    lookupStatus ⟨[("o1", PedidoStatus.enviadoWhatsapp)], [⟨"o1", "p1", 2⟩],
        [("p1", 3)]⟩ "o1" = some PedidoStatus.enviadoWhatsapp ∧
    (((Estado.mk [("o1", PedidoStatus.enviadoWhatsapp)] [⟨"o1", "p1", 2⟩]
        [("p1", 3)]).itens.filter (fun it => it.pedidoId == "o1")).map
        ItemPedido.produtoId).Nodup ∧
    (∃ st2, rpcAprovarPedido ⟨[("o1", PedidoStatus.enviadoWhatsapp)],
        [⟨"o1", "p1", 2⟩], [("p1", 3)]⟩ "o1" = .ok st2 ∧
      lookupStatus st2 "o1" = some PedidoStatus.aprovado ∧
      (∀ it ∈ (Estado.mk [("o1", PedidoStatus.enviadoWhatsapp)]
          [⟨"o1", "p1", 2⟩] [("p1", 3)]).itens, it.pedidoId = "o1" →
        getEstoque st2 it.produtoId =
          getEstoque ⟨[("o1", PedidoStatus.enviadoWhatsapp)],
            [⟨"o1", "p1", 2⟩], [("p1", 3)]⟩ it.produtoId - it.quantidade) ∧
      (∀ pid : String,
        (∀ it ∈ (Estado.mk [("o1", PedidoStatus.enviadoWhatsapp)]
            [⟨"o1", "p1", 2⟩] [("p1", 3)]).itens, it.pedidoId = "o1" →
          it.produtoId ≠ pid) →
        getEstoque st2 pid =
          getEstoque ⟨[("o1", PedidoStatus.enviadoWhatsapp)],
            [⟨"o1", "p1", 2⟩], [("p1", 3)]⟩ pid) ∧
      rpcAprovarPedido (aprovadoEstado ⟨[("o1", PedidoStatus.enviadoWhatsapp)],
          [⟨"o1", "p1", 2⟩], [("p1", 3)]⟩ "o1") "o1" =
        .error .invalidTransition) :=
  ⟨by decide, by decide,
    aprovarPedido_spec ⟨[("o1", PedidoStatus.enviadoWhatsapp)],
      [⟨"o1", "p1", 2⟩], [("p1", 3)]⟩ "o1" (by decide) (by decide)⟩

end Lifecycle
